import Mathlib

/-!
Verification of the Swipy authentication bootstrap: the PKCE
verifier/challenge utilities in `src/backend/utils.ts` and the
client-credentials token fetcher `getSpotifyToken`.

Platform primitives used by the source (`TextEncoder`, WebCrypto
`SHA-256` digest, `btoa`, `crypto.getRandomValues`) are modelled by
their published standards: UTF-8 encoding, the FIPS 180-4 SHA-256
algorithm over byte lists, and RFC 4648 base64.  Machine words are
`Nat` with explicit `% 2 ^ 32`.
-/

namespace Swipy

/-! ## SHA-256 (model of `window.crypto.subtle.digest('SHA-256', _)`) -/

/-- Right rotation of a 32-bit word represented as a `Nat` below `2 ^ 32`. -/
def rotr (k x : Nat) : Nat := x / 2 ^ k + x % 2 ^ k * 2 ^ (32 - k)

/-- The lower sigma-0 function of the SHA-256 message schedule. -/
def smallSigma0 (x : Nat) : Nat := rotr 7 x ^^^ rotr 18 x ^^^ x / 2 ^ 3

/-- The lower sigma-1 function of the SHA-256 message schedule. -/
def smallSigma1 (x : Nat) : Nat := rotr 17 x ^^^ rotr 19 x ^^^ x / 2 ^ 10

/-- The upper sigma-0 function of the SHA-256 compression function. -/
def bigSigma0 (x : Nat) : Nat := rotr 2 x ^^^ rotr 13 x ^^^ rotr 22 x

/-- The upper sigma-1 function of the SHA-256 compression function. -/
def bigSigma1 (x : Nat) : Nat := rotr 6 x ^^^ rotr 11 x ^^^ rotr 25 x

/-- The 64 SHA-256 round constants. -/
def K256 : List Nat :=
  [1116352408, 1899447441, 3049323471, 3921009573, 961987163, 1508970993,
   2453635748, 2870763221, 3624381080, 310598401, 607225278, 1426881987,
   1925078388, 2162078206, 2614888103, 3248222580, 3835390401, 4022224774,
   264347078, 604807628, 770255983, 1249150122, 1555081692, 1996064986,
   2554220882, 2821834349, 2952996808, 3210313671, 3336571891, 3584528711,
   113926993, 338241895, 666307205, 773529912, 1294757372, 1396182291,
   1695183700, 1986661051, 2177026350, 2456956037, 2730485921, 2820302411,
   3259730800, 3345764771, 3516065817, 3600352804, 4094571909, 275423344,
   430227734, 506948616, 659060556, 883997877, 958139571, 1322822218,
   1537002063, 1747873779, 1955562222, 2024104815, 2227730452, 2361852424,
   2428436474, 2756734187, 3204031479, 3329325298]

/-- The eight SHA-256 working variables / hash state words. -/
structure SHAState where
  a : Nat
  b : Nat
  c : Nat
  d : Nat
  e : Nat
  f : Nat
  g : Nat
  h : Nat

/-- The SHA-256 initial hash value. -/
def initState : SHAState :=
  ⟨1779033703, 3144134277, 1013904242, 2773480762,
   1359893119, 2600822924, 528734635, 1541459225⟩

/-- One round of the SHA-256 compression function; `kw` pairs the round
constant with the scheduled message word. -/
def roundStep (st : SHAState) (kw : Nat × Nat) : SHAState :=
  let ch := st.e &&& st.f ^^^ (st.e ^^^ 4294967295) &&& st.g
  let temp1 := (st.h + bigSigma1 st.e + ch + kw.1 + kw.2) % 2 ^ 32
  let maj := st.a &&& st.b ^^^ st.a &&& st.c ^^^ st.b &&& st.c
  let temp2 := (bigSigma0 st.a + maj) % 2 ^ 32
  ⟨(temp1 + temp2) % 2 ^ 32, st.a, st.b, st.c, (st.d + temp1) % 2 ^ 32, st.e, st.f, st.g⟩

/-- Extend the 16 block words to the 64-word message schedule; `n` counts
the remaining words to append. -/
def scheduleAux : Nat → List Nat → List Nat
  | 0, w => w
  | n + 1, w =>
      let t := (w.getD (w.length - 16) 0 + smallSigma0 (w.getD (w.length - 15) 0)
                + w.getD (w.length - 7) 0 + smallSigma1 (w.getD (w.length - 2) 0)) % 2 ^ 32
      scheduleAux n (w ++ [t])

/-- The full 64-word message schedule of a block. -/
def schedule (w : List Nat) : List Nat := scheduleAux 48 w

/-- Big-endian packing of bytes into 32-bit words. -/
def toWords : List Nat → List Nat
  | b1 :: b2 :: b3 :: b4 :: rest =>
      (((b1 * 256 + b2) * 256 + b3) * 256 + b4) :: toWords rest
  | _ => []

/-- Pointwise sum of two hash states, modulo `2 ^ 32`. -/
def addState (x y : SHAState) : SHAState :=
  ⟨(x.a + y.a) % 2 ^ 32, (x.b + y.b) % 2 ^ 32, (x.c + y.c) % 2 ^ 32,
   (x.d + y.d) % 2 ^ 32, (x.e + y.e) % 2 ^ 32, (x.f + y.f) % 2 ^ 32,
   (x.g + y.g) % 2 ^ 32, (x.h + y.h) % 2 ^ 32⟩

/-- Process one 64-byte block. -/
def compressBlock (st : SHAState) (block : List Nat) : SHAState :=
  addState st ((K256.zip (schedule (toWords block))).foldl roundStep st)

/-- Split a byte list into 64-byte chunks; the fuel argument is an upper
bound on the number of chunks, making the recursion structural. -/
def chunksAux : Nat → List Nat → List (List Nat)
  | 0, _ => []
  | _, [] => []
  | n + 1, l => l.take 64 :: chunksAux n (l.drop 64)

/-- The 8-byte big-endian encoding of the bit length. -/
def lengthBytes (n : Nat) : List Nat :=
  [n / 2 ^ 56 % 256, n / 2 ^ 48 % 256, n / 2 ^ 40 % 256, n / 2 ^ 32 % 256,
   n / 2 ^ 24 % 256, n / 2 ^ 16 % 256, n / 2 ^ 8 % 256, n % 256]

/-- SHA-256 padding: a `0x80` byte, zeros, then the 64-bit message bit
length, to a multiple of 64 bytes. -/
def padMsg (msg : List Nat) : List Nat :=
  msg ++ 128 :: (List.replicate ((64 - (msg.length + 9) % 64) % 64) 0
    ++ lengthBytes (msg.length * 8))

/-- Big-endian serialization of a 32-bit word to four bytes. -/
def wordToBytes (w : Nat) : List Nat :=
  [w / 2 ^ 24 % 256, w / 2 ^ 16 % 256, w / 2 ^ 8 % 256, w % 256]

/-- The 32-byte SHA-256 digest of a byte list. -/
def sha256Bytes (msg : List Nat) : List Nat :=
  let p := padMsg msg
  let fin := (chunksAux p.length p).foldl compressBlock initState
  wordToBytes fin.a ++ wordToBytes fin.b ++ wordToBytes fin.c ++ wordToBytes fin.d ++
    wordToBytes fin.e ++ wordToBytes fin.f ++ wordToBytes fin.g ++ wordToBytes fin.h

/-! ## UTF-8 (model of `TextEncoder().encode`) -/

/-- The UTF-8 bytes of one code point. -/
def utf8Bytes (c : Char) : List Nat :=
  let n := c.toNat
  if n < 128 then [n]
  else if n < 2048 then [192 + n / 64, 128 + n % 64]
  else if n < 65536 then [224 + n / 4096, 128 + n / 64 % 64, 128 + n % 64]
  else [240 + n / 262144, 128 + n / 4096 % 64, 128 + n / 64 % 64, 128 + n % 64]

/-- The UTF-8 encoding of a string. -/
def utf8Encode (s : String) : List Nat :=
  s.data.foldr (fun c acc => utf8Bytes c ++ acc) []

/-- `sha256` of `src/backend/utils.ts`: the SHA-256 digest of the UTF-8
encoding of the input string. -/
def sha256 (plain : String) : List Nat := sha256Bytes (utf8Encode plain)

/-! ## base64 (model of `btoa`) and `base64encode` of `utils.ts` -/

/-- The standard base64 alphabet. -/
def b64Alphabet : List Char :=
  "ABCDEFGHIJKLMNOPQRSTUVWXYZabcdefghijklmnopqrstuvwxyz0123456789+/".toList

/-- The base64 character of a sextet value. -/
def b64Char (n : Nat) : Char := b64Alphabet.getD n 'A'

/-- RFC 4648 base64 of a byte list, with `=` padding: what `btoa` emits
on a binary string holding these byte values. -/
def btoaChars : List Nat → List Char
  | [] => []
  | [b1] => [b64Char (b1 / 4), b64Char (b1 % 4 * 16), '=', '=']
  | [b1, b2] => [b64Char (b1 / 4), b64Char (b1 % 4 * 16 + b2 / 16),
                 b64Char (b2 % 16 * 4), '=']
  | b1 :: b2 :: b3 :: rest =>
      b64Char (b1 / 4) :: b64Char (b1 % 4 * 16 + b2 / 16) ::
        b64Char (b2 % 16 * 4 + b3 / 64) :: b64Char (b3 % 64) :: btoaChars rest

/-- `btoa` on an ordinary string: base64 of its char codes. -/
def btoa (s : String) : String := String.mk (btoaChars (s.data.map Char.toNat))

/-- The character substitution applied by `base64encode`:
`+` becomes `-` and `/` becomes `_`. -/
def b64UrlSub (c : Char) : Char :=
  if c = '+' then '-' else if c = '/' then '_' else c

/-- `base64encode` of `src/backend/utils.ts`: `btoa` of the input bytes,
then every `=` removed (`.replace(/=/g, '')`), then `+` replaced by `-`
and `/` by `_`. -/
def base64encode (input : List Nat) : String :=
  String.mk (((btoaChars input).filter (fun c => c != '=')).map b64UrlSub)

/-- The challenge derivation of the source, as composed at the use site:
`base64encode(await sha256(codeVerifier))`. -/
def deriveChallenge (v : String) : String := base64encode (sha256 v)

/-! ## `generateRandomString` of `utils.ts` -/

/-- The 62-character alphabet of `generateRandomString`. -/
def possibleChars : List Char :=
  "ABCDEFGHIJKLMNOPQRSTUVWXYZabcdefghijklmnopqrstuvwxyz0123456789".toList

/-- `generateRandomString` of `src/backend/utils.ts`.  The call
`crypto.getRandomValues(new Uint8Array(length))` is modelled by an
ambient byte source `rand`, truncated to a byte; the reduce over the
resulting values appends `possible[x % possible.length]` per byte. -/
def generateRandomString (length : Nat) (rand : Nat → Nat) : String :=
  ((List.range length).map (fun i => rand i % 256)).foldl
    (fun acc x => acc.push (possibleChars.getD (x % possibleChars.length) 'A')) ""

/-- Membership in the character class `[A-Za-z0-9]`. -/
def isAlphaNumChar (c : Char) : Bool :=
  ('A' ≤ c && c ≤ 'Z') || ('a' ≤ c && c ≤ 'z') || ('0' ≤ c && c ≤ '9')

/-! ## Spec-side reading of the challenge encoding

The spec describes the encoding as base64url — `+` to `-`, `/` to `_` —
with the *trailing* `=` padding stripped; the source removes every `=`
before substituting.  The spec-side definition below follows the spec's
words, for comparison with `base64encode` above. -/

/-- Drop the trailing run of `=` characters. -/
def stripTrailingEq (l : List Char) : List Char :=
  (l.reverse.dropWhile (fun c => c == '=')).reverse

/-- Base64url-no-padding as the spec words it: substitute `+` and `/`,
then strip the trailing `=` padding. -/
def base64urlNoPad (b : List Nat) : String :=
  String.mk (stripTrailingEq ((btoaChars b).map b64UrlSub))

/-- The challenge as the spec words it: base64url-no-padding of the
SHA-256 digest of the UTF-8 encoding of the verifier. -/
def deriveChallengeSpec (v : String) : String := base64urlNoPad (sha256 v)

/-! ## The token fetcher (`getSpotifyToken` of the unnamed backend file) -/

/-- A JavaScript value as it appears in a parsed JSON response body:
the fields the code reads are strings or numbers, and a missing field
reads as `undefined`. -/
inductive JSVal where
  | str : String → JSVal
  | num : Int → JSVal
  | undefinedVal : JSVal
deriving DecidableEq

/-- A parsed JSON object, as a field list. -/
abbrev JObject := List (String × JSVal)

/-- JavaScript property access on a parsed object: the field's value,
or `undefined` when absent. -/
def getField (o : JObject) (k : String) : JSVal := (o.lookup k).getD .undefinedVal

/-- An HTTP response as the code observes it: the `ok` flag and the
result of `response.json()` (`none` when the body is not valid JSON,
in which case `json()` rejects). -/
structure HttpResponse where
  ok : Bool
  jsonBody : Option JObject

/-- The outcome of the `fetch` call: a response, or a network failure
carrying the low-level error text. -/
inductive FetchOutcome where
  | response : HttpResponse → FetchOutcome
  | networkFailure : String → FetchOutcome

/-- An exception raised inside the `try` block: the custom
`SpotifyAuthError` (message, `errorCode`, `errorDescription`), or any
other runtime error (network failure, JSON parse failure). -/
inductive JsError where
  | spotifyAuthError : String → JSVal → JSVal → JsError
  | otherError : String → JsError
deriving DecidableEq

/-- The error the caller of `getSpotifyToken` observes. -/
inductive TokenFailure where
  | authError : String → JSVal → JSVal → TokenFailure
  | genericError : String → TokenFailure
deriving DecidableEq

/-- The observable result of `getSpotifyToken`: its return value or
thrown error, plus everything written via `console.error`. -/
structure TokenResult where
  result : Except TokenFailure JSVal
  log : List String

/-- The request `getSpotifyToken` builds for `fetch`. -/
structure HttpRequest where
  url : String
  method : String
  headers : List (String × String)
  body : String
deriving DecidableEq

/-- The single request issued by `getSpotifyToken`, with the
environment credentials as parameters.  The source writes a header
literally named `Application` whose value is the string `Basic`
immediately followed by `btoa(CLIENT_ID + ':' + CLIENT_SECRET)`, and
the body `grant-type=client-credentials`. -/
def tokenRequest (clientId clientSecret : String) : HttpRequest :=
  { url := "https://accounts.spotify.com/api/token"
    method := "POST"
    headers := [("Content-Type", "application/x-www-form-urlencoded"),
                ("Application", "Basic" ++ btoa (clientId ++ ":" ++ clientSecret))]
    body := "grant-type=client-credentials" }

/-- The `try` block of `getSpotifyToken`, as a function of the fetch
outcome.  On a non-`ok` response the body is parsed and a
`SpotifyAuthError` is thrown whose message is the template literal
`Spotify API error:: \x7b$errorData.error\x7d` — the braces are not
`$\x7b...\x7d`, so the template is emitted literally — and whose
`errorCode` and `errorDescription` are the body's `error` and
`error_description` fields.  On an `ok` response the body is parsed
and `data.access_token` is returned. -/
def getSpotifyTokenInner (outcome : FetchOutcome) : Except JsError JSVal :=
  match outcome with
  | .networkFailure detail => .error (.otherError detail)
  | .response resp =>
      if resp.ok then
        match resp.jsonBody with
        | none => .error (.otherError "SyntaxError: unexpected token in JSON")
        | some data => .ok (getField data "access_token")
      else
        match resp.jsonBody with
        | none => .error (.otherError "SyntaxError: unexpected token in JSON")
        | some errorData =>
            .error (.spotifyAuthError "Spotify API error:: \x7b$errorData.error\x7d"
              (getField errorData "error") (getField errorData "error_description"))

/-- `getSpotifyToken`: the `try` block wrapped in the `catch` clause.
A `SpotifyAuthError` is re-thrown unchanged; every other error is
logged with `console.error` and replaced by the generic
`Error('Unable to authenticate with Spotify')`. -/
def getSpotifyToken (outcome : FetchOutcome) : TokenResult :=
  match getSpotifyTokenInner outcome with
  | .ok v => ⟨.ok v, []⟩
  | .error (.spotifyAuthError m c d) => ⟨.error (.authError m c d), []⟩
  | .error (.otherError detail) =>
      ⟨.error (.genericError "Unable to authenticate with Spotify"),
       ["Failed to get Spotify token: " ++ detail]⟩

/-! ## Helper lemmas -/

/-- The SHA-256 digest always has 32 bytes. -/
theorem sha256Bytes_length (msg : List Nat) : (sha256Bytes msg).length = 32 := by
  simp [sha256Bytes, wordToBytes]

/-- A base64 alphabet character is never the padding character. -/
theorem b64Char_ne_pad (m : Nat) : b64Char m ≠ '=' := by
  unfold b64Char
  by_cases h : m < 64
  · exact (by decide : ∀ m < 64, b64Alphabet.getD m 'A' ≠ '=') m h
  · rw [List.getD_eq_default]
    · decide
    · have hlen : b64Alphabet.length = 64 := by decide
      omega

/-- On a byte list of length ≡ 2 mod 3, `btoaChars` produces a run of
alphabet characters followed by exactly one `=`. -/
theorem btoa_split :
    ∀ (n : Nat) (l : List Nat), l.length ≤ n → l.length % 3 = 2 →
      ∃ front, btoaChars l = front ++ ['='] ∧ '=' ∉ front ∧
        front.length = l.length / 3 * 4 + 3 := by
  intro n
  induction n with
  | zero =>
      intro l hl hm
      match l with
      | [] => simp at hm
      | a :: t => simp at hl
  | succ n ih =>
      intro l hl hm
      match l with
      | [] => simp at hm
      | [b1] => simp at hm
      | [b1, b2] =>
          refine ⟨[b64Char (b1 / 4), b64Char (b1 % 4 * 16 + b2 / 16),
            b64Char (b2 % 16 * 4)], rfl, ?_, by simp⟩
          simp only [List.mem_cons, List.not_mem_nil, or_false, not_or]
          exact ⟨fun h => b64Char_ne_pad _ h.symm, fun h => b64Char_ne_pad _ h.symm,
            fun h => b64Char_ne_pad _ h.symm⟩
      | b1 :: b2 :: b3 :: rest =>
          have hr : rest.length % 3 = 2 := by
            simp only [List.length_cons] at hm
            omega
          have hrn : rest.length ≤ n := by
            simp only [List.length_cons] at hl
            omega
          obtain ⟨front, h1, h2, h3⟩ := ih rest hrn hr
          refine ⟨b64Char (b1 / 4) :: b64Char (b1 % 4 * 16 + b2 / 16) ::
            b64Char (b2 % 16 * 4 + b3 / 64) :: b64Char (b3 % 64) :: front, ?_, ?_, ?_⟩
          · show btoaChars (b1 :: b2 :: b3 :: rest) = _
            rw [btoaChars, h1]
            rfl
          · simp only [List.mem_cons, not_or]
            exact ⟨fun h => b64Char_ne_pad _ h.symm, fun h => b64Char_ne_pad _ h.symm,
              fun h => b64Char_ne_pad _ h.symm, fun h => b64Char_ne_pad _ h.symm, h2⟩
          · simp only [List.length_cons, h3]
            omega

/-- Stripping the trailing `=` run from a list that ends in a single `=`
removes exactly that character. -/
theorem stripTrailingEq_append (x : List Char) (hx : '=' ∉ x) :
    stripTrailingEq (x ++ ['=']) = x := by
  have hdrop : x.reverse.dropWhile (fun c => c == '=') = x.reverse := by
    cases hx2 : x.reverse with
    | nil => rfl
    | cons a t =>
        have ha : ¬(a = '=') := by
          intro h
          apply hx
          rw [← List.mem_reverse, hx2, h]
          exact List.mem_cons_self _ _
        simp [List.dropWhile_cons, ha]
  unfold stripTrailingEq
  rw [List.reverse_append]
  show (List.dropWhile (fun c => c == '=') ('=' :: x.reverse)).reverse = x
  rw [List.dropWhile_cons]
  simp [hdrop]

/-- The url-substitution maps only `=` to `=`. -/
theorem b64UrlSub_eq_pad (c : Char) (hc : b64UrlSub c = '=') : c = '=' := by
  unfold b64UrlSub at hc
  split at hc
  · exact absurd hc (by decide)
  · split at hc
    · exact absurd hc (by decide)
    · exact hc

/-! ## Claims about the PKCE generator -/

/-- C7: `deriveChallenge` maps the RFC 7636 test verifier
`dBjftJeZ4CVP-mB92K27uhbUJU1p1r_wW1gFWFOEjXk` to the published
challenge `E9Melhoa2OwvFrEMTJguCHaoeK1t8URWbuGJSstw-cM`. -/
theorem deriveChallenge_test_vector :
    deriveChallenge "dBjftJeZ4CVP-mB92K27uhbUJU1p1r_wW1gFWFOEjXk"
      = "E9Melhoa2OwvFrEMTJguCHaoeK1t8URWbuGJSstw-cM" := by decide

/-- C1: for every input string, `deriveChallenge` — which removes every
`=` before substituting — coincides with the spec's reading, base64url
substitution followed by stripping the trailing `=` padding of the
base64 encoding of the 32-byte SHA-256 digest of the UTF-8 bytes. -/
theorem deriveChallenge_eq_spec (v : String) :
    deriveChallenge v = deriveChallengeSpec v := by
  have h32 : (sha256 v).length = 32 := sha256Bytes_length (utf8Encode v)
  obtain ⟨front, h1, h2, h3⟩ :=
    btoa_split (sha256 v).length (sha256 v) le_rfl (by rw [h32])
  unfold deriveChallenge deriveChallengeSpec base64encode base64urlNoPad
  rw [h1]
  have hfilter : (front ++ ['=']).filter (fun c => c != '=') = front := by
    rw [List.filter_append]
    have hself : front.filter (fun c => c != '=') = front := by
      apply List.filter_eq_self.mpr
      intro a ha
      simp only [bne_iff_ne, ne_eq, decide_eq_true_eq]
      intro h
      exact h2 (h ▸ ha)
    rw [hself]
    simp
  have hmapped : '=' ∉ front.map b64UrlSub := by
    intro hmem
    obtain ⟨c, hc, hceq⟩ := List.mem_map.mp hmem
    exact h2 (b64UrlSub_eq_pad c hceq ▸ hc)
  have hmap : (front ++ ['=']).map b64UrlSub = front.map b64UrlSub ++ ['='] := by
    rw [List.map_append]
    rfl
  rw [hfilter, hmap, stripTrailingEq_append _ hmapped]

/-- C10: for every input string, the derived challenge has exactly 43
characters: 44 base64 characters for the 32-byte digest, minus the one
`=` of padding. -/
theorem deriveChallenge_length (v : String) :
    (deriveChallenge v).length = 43 := by
  have h32 : (sha256 v).length = 32 := sha256Bytes_length (utf8Encode v)
  obtain ⟨front, h1, h2, h3⟩ :=
    btoa_split (sha256 v).length (sha256 v) le_rfl (by rw [h32])
  unfold deriveChallenge base64encode
  rw [h1]
  have hfilter : (front ++ ['=']).filter (fun c => c != '=') = front := by
    rw [List.filter_append]
    have hself : front.filter (fun c => c != '=') = front := by
      apply List.filter_eq_self.mpr
      intro a ha
      simp only [bne_iff_ne, ne_eq, decide_eq_true_eq]
      intro h
      exact h2 (h ▸ ha)
    rw [hself]
    simp
  rw [hfilter, String.length_mk, List.length_map]
  rw [h32] at h3
  omega

/-! ## Claims about the verifier generator -/

/-- The character reduce of `generateRandomString`, described as a map. -/
theorem gen_data (l : List Nat) (s : String) :
    (l.foldl (fun acc x =>
        acc.push (possibleChars.getD (x % possibleChars.length) 'A')) s).data
      = s.data ++ l.map (fun x => possibleChars.getD (x % possibleChars.length) 'A') := by
  induction l generalizing s with
  | nil => simp
  | cons a t ih =>
      rw [List.foldl_cons, ih, String.data_push]
      simp

/-- Every character the alphabet lookup can produce is alphanumeric. -/
theorem possibleChars_getD_alphanum (m : Nat) :
    isAlphaNumChar (possibleChars.getD m 'A') = true := by
  by_cases h : m < 62
  · exact (by decide : ∀ m < 62, isAlphaNumChar (possibleChars.getD m 'A') = true) m h
  · rw [List.getD_eq_default]
    · decide
    · have hlen : possibleChars.length = 62 := by decide
      omega

/-- C2: for every length L ≥ 1 and every byte source, the generated
verifier has exactly L characters, each in `[A-Za-z0-9]`. -/
theorem generateRandomString_spec (L : Nat) (rand : Nat → Nat) (_hL : 1 ≤ L) :
    (generateRandomString L rand).length = L ∧
      ∀ c ∈ (generateRandomString L rand).data, isAlphaNumChar c = true := by
  have hdata : (generateRandomString L rand).data
      = ((List.range L).map (fun i => rand i % 256)).map
          (fun x => possibleChars.getD (x % possibleChars.length) 'A') := by
    unfold generateRandomString
    rw [gen_data]
    rfl
  constructor
  · show (generateRandomString L rand).data.length = L
    rw [hdata]
    simp
  · intro c hc
    rw [hdata] at hc
    obtain ⟨x, _, hx⟩ := List.mem_map.mp hc
    exact hx ▸ possibleChars_getD_alphanum _

/-- C2 witness at L = 3 with the identity byte source. -/
theorem generateRandomString_spec_witness :
    1 ≤ 3 ∧ ((generateRandomString 3 (fun i => i)).length = 3 ∧
      ∀ c ∈ (generateRandomString 3 (fun i => i)).data, isAlphaNumChar c = true) :=
  ⟨by decide, generateRandomString_spec 3 (fun i => i) (by decide)⟩

/-- C8: the alphabet has 62 characters, and the verifier's characters
are, in order, `possible[byte % 62]` of the successive random bytes —
one byte per character, the modulo-62 policy. -/
theorem generateRandomString_policy (L : Nat) (rand : Nat → Nat) :
    possibleChars.length = 62 ∧
      (generateRandomString L rand).data
        = (List.range L).map
            (fun i => possibleChars.getD (rand i % 256 % possibleChars.length) 'A') := by
  refine ⟨by decide, ?_⟩
  unfold generateRandomString
  rw [gen_data, List.map_map]
  rfl

/-! ## Claims about the token fetcher -/

/-- C3 (evidence of the defect): at concrete credentials, the request
`getSpotifyToken` builds carries its Basic credentials in a header
literally named `Application` — with no space after `Basic` — and the
body `grant-type=client-credentials`; no header is named
`Authorization` and the body is not `grant_type=client_credentials`. -/
theorem tokenRequest_wire :
    tokenRequest "id" "secret"
      = ⟨"https://accounts.spotify.com/api/token", "POST",
         [("Content-Type", "application/x-www-form-urlencoded"),
          ("Application", "BasicaWQ6c2VjcmV0")],
         "grant-type=client-credentials"⟩ := by decide

/-- C4: a non-ok response whose body parses with string `error` and
`error_description` fields makes `getSpotifyToken` throw the structured
`SpotifyAuthError` carrying exactly those two values. -/
theorem getSpotifyToken_structured (resp : HttpResponse) (o : JObject) (e d : String)
    (hok : resp.ok = false) (hbody : resp.jsonBody = some o)
    (he : getField o "error" = .str e) (hd : getField o "error_description" = .str d) :
    (getSpotifyToken (.response resp)).result
      = .error (.authError "Spotify API error:: \x7b$errorData.error\x7d"
          (.str e) (.str d)) := by
  simp [getSpotifyToken, getSpotifyTokenInner, hok, hbody, he, hd]

/-- C4 witness: the spec's `invalid_client` scenario. -/
theorem getSpotifyToken_structured_witness :
    (getSpotifyToken (.response ⟨false,
        some [("error", .str "invalid_client"),
              ("error_description", .str "Invalid client secret")]⟩)).result
      = .error (.authError "Spotify API error:: \x7b$errorData.error\x7d"
          (.str "invalid_client") (.str "Invalid client secret")) :=
  getSpotifyToken_structured ⟨false,
    some [("error", .str "invalid_client"),
          ("error_description", .str "Invalid client secret")]⟩
    _ _ _ rfl rfl rfl rfl

/-- C5: when the try block fails with anything other than the structured
`SpotifyAuthError`, the caller sees the fixed generic failure — whose
text does not depend on the underlying detail — and the detail goes to
the log; when it fails with the structured error, that error reaches
the caller unchanged and nothing is logged. -/
theorem getSpotifyToken_propagation (outcome : FetchOutcome) :
    (∀ detail, getSpotifyTokenInner outcome = .error (.otherError detail) →
        (getSpotifyToken outcome).result
            = .error (.genericError "Unable to authenticate with Spotify")
          ∧ (getSpotifyToken outcome).log
            = ["Failed to get Spotify token: " ++ detail])
      ∧ ∀ m c d, getSpotifyTokenInner outcome = .error (.spotifyAuthError m c d) →
          (getSpotifyToken outcome).result = .error (.authError m c d)
            ∧ (getSpotifyToken outcome).log = [] := by
  constructor
  · intro detail hinner
    unfold getSpotifyToken
    rw [hinner]
    exact ⟨rfl, rfl⟩
  · intro m c d hinner
    unfold getSpotifyToken
    rw [hinner]
    exact ⟨rfl, rfl⟩

/-- C5 witness: a connection-refused network failure is re-signaled as
the generic failure and the low-level detail is only logged. -/
theorem getSpotifyToken_propagation_witness :
    (getSpotifyToken (.networkFailure "ECONNREFUSED")).result
        = .error (.genericError "Unable to authenticate with Spotify")
      ∧ (getSpotifyToken (.networkFailure "ECONNREFUSED")).log
        = ["Failed to get Spotify token: ECONNREFUSED"] :=
  (getSpotifyToken_propagation (.networkFailure "ECONNREFUSED")).1 "ECONNREFUSED" rfl

/-- C6: on an ok response with body
`{"access_token":"abc123","token_type":"Bearer","expires_in":3600}`,
`getSpotifyToken` returns exactly `"abc123"`, throws nothing, logs
nothing, and keeps no other field of the response. -/
theorem getSpotifyToken_success :
    getSpotifyToken (.response ⟨true,
        some [("access_token", .str "abc123"), ("token_type", .str "Bearer"),
              ("expires_in", .num 3600)]⟩)
      = ⟨.ok (.str "abc123"), []⟩ := rfl

/-- C9: whatever non-ok parsed body arrives, the structured error's
message is the one fixed literal containing the uninterpolated template
text, while its code and description fields come from the body. -/
theorem getSpotifyToken_message_literal (resp : HttpResponse) (o : JObject)
    (m : String) (c d : JSVal)
    (hok : resp.ok = false) (hbody : resp.jsonBody = some o)
    (hres : (getSpotifyToken (.response resp)).result = .error (.authError m c d)) :
    m = "Spotify API error:: \x7b$errorData.error\x7d"
      ∧ c = getField o "error" ∧ d = getField o "error_description" := by
  simp [getSpotifyToken, getSpotifyTokenInner, hok, hbody] at hres
  exact ⟨hres.1.symm, hres.2.1.symm, hres.2.2.symm⟩

/-- C9 witness: a `server_error` body produces the same literal message. -/
theorem getSpotifyToken_message_literal_witness :
    "Spotify API error:: \x7b$errorData.error\x7d"
        = "Spotify API error:: \x7b$errorData.error\x7d"
      ∧ JSVal.str "server_error"
          = getField [("error", .str "server_error"),
                      ("error_description", .str "boom")] "error"
      ∧ JSVal.str "boom"
          = getField [("error", .str "server_error"),
                      ("error_description", .str "boom")] "error_description" :=
  getSpotifyToken_message_literal
    ⟨false, some [("error", .str "server_error"), ("error_description", .str "boom")]⟩
    [("error", .str "server_error"), ("error_description", .str "boom")]
    "Spotify API error:: \x7b$errorData.error\x7d"
    (.str "server_error") (.str "boom") rfl rfl rfl

end Swipy
